import Mathlib

/-!
Shallow embedding of the reconciliation core of `src/excel_streamlit.py`.

A spreadsheet cell value is a number, a string, or missing (pandas NaN).
A loaded spreadsheet (`pd.read_excel`) is a `DataFrame`: a header whose
first column is the row key, the remaining column names, and rows whose
data values are aligned positionally with the data columns (pandas gives
every row every column, missing cells read as NaN).

`perform_sync` (lines 62-106 of the source) is modelled as a state
transition: the cooldown check, the keep-last deduplication of source
rows, the per-cell update loop, the conditional rewrite of the target
file, and the `PermissionError` branch.  Wall-clock time and the
lockedness of the target file are explicit parameters.
-/

/-- A cell value: missing (NaN), a number, or a string. -/
inductive Value where
  | missing : Value
  | num : ℚ → Value
  | str : String → Value
deriving DecidableEq, Repr

/-- Function `pd.isna`: true exactly on a missing value. -/
def pd_isna : Value → Bool
  | Value.missing => true
  | _ => false

/-- Python `==` on cell values as pandas stores them: numbers compare by
numeric value (so `5` and `5.0` are equal), strings by content, NaN is
unequal to everything including itself, and a number never equals a
string. -/
def pyEq : Value → Value → Bool
  | Value.num a, Value.num b => a == b
  | Value.str a, Value.str b => a == b
  | _, _ => false

/-- A loaded spreadsheet: key column name, remaining column names, and
rows as (key value, data values aligned with `dataCols`). -/
structure DataFrame where
  keyCol : String
  dataCols : List String
  rows : List (Value × List Value)
deriving DecidableEq, Repr

/-- Model of `df.drop_duplicates(subset=[first column], keep='last')`: a row is
kept iff no later row has the same key; kept rows stay in order. -/
def drop_duplicates_keep_last : List (Value × List Value) → List (Value × List Value)
  | [] => []
  | r :: rs =>
    if rs.any (fun r2 => pyEq r2.1 r.1) then drop_duplicates_keep_last rs
    else r :: drop_duplicates_keep_last rs

/-- Lookup in `source_map` (the dict built by
`df_source.set_index(first column).to_dict('index')` after keep-last
deduplication): the data values of the unique deduplicated row whose key
equals `k` under Python equality. -/
def source_map (rows : List (Value × List Value)) (k : Value) : Option (List Value) :=
  ((drop_duplicates_keep_last rows).find? (fun r => pyEq r.1 k)).map Prod.snd

/-- Line 87 of the source: `pd.isna(old_value) or old_value != new_value`. -/
def should_update (old nw : Value) : Bool :=
  pd_isna old || !(pyEq old nw)

/-- The inner loop of `perform_sync` over the data columns of one target
row: for each target column `c` with current value `old`, if `c` is a key
of the matched source row's dict (`col in source_map[name]`), write the
source value when `should_update` holds and count it; otherwise leave the
cell alone.  Returns the new data values and the number of updated
cells. -/
def update_cells (srcRow : List (String × Value)) : List String → List Value → List Value × Nat
  | _, [] => ([], 0)
  | [], olds => (olds, 0)
  | c :: cs, old :: olds =>
    let rest := update_cells srcRow cs olds
    match srcRow.lookup c with
    | none => (old :: rest.1, rest.2)
    | some nw =>
      if should_update old nw then (nw :: rest.1, rest.2 + 1)
      else (old :: rest.1, rest.2)

/-- The reconciliation core (lines 74-89): deduplicate the source
keep-last, then for every target row whose key is in the source map,
update its cells from the matched source row.  Returns the updated
target table and `update_count`. -/
def reconcile (df_source df_target : DataFrame) : DataFrame × Nat :=
  let results := df_target.rows.map (fun r =>
    match source_map df_source.rows r.1 with
    | none => (r, 0)
    | some srcVals =>
      let res := update_cells (df_source.dataCols.zip srcVals) df_target.dataCols r.2
      ((r.1, res.1), res.2))
  ({ df_target with rows := results.map Prod.fst },
   (results.map Prod.snd).sum)

/-- The `log` function (lines 28-32): prepend the message, keep at most
20 entries by dropping the oldest. -/
def log (message : String) (msgs : List String) : List String :=
  let m := message :: msgs
  if m.length > 20 then m.dropLast else m

/-- The mutable session state that `perform_sync` reads and writes,
together with the contents of the two files on disk.  `last_hash` stands
for `get_file_hash(source_path)`; since the hash is a stand-in for the
file's bytes we store the fingerprinted contents themselves.
`target_writes` counts executed `df_target.to_excel(target_path)` calls,
so "the target file was not rewritten" is expressible even when the
written contents would be identical. -/
structure SyncState where
  last_sync_time : Int
  last_hash : Option DataFrame
  source_file : DataFrame
  target_file : DataFrame
  target_writes : Nat
  log_messages : List String
deriving DecidableEq, Repr

/-- Observable outcome of one `perform_sync` call. -/
inductive SyncOutcome where
  | skipped_cooldown : SyncOutcome
  | synced : Nat → SyncOutcome
  | no_changes : SyncOutcome
  | locked_error : SyncOutcome
deriving DecidableEq, Repr

/-- Number of cell updates an outcome reports. -/
def updates_of : SyncOutcome → Nat
  | SyncOutcome.synced n => n
  | _ => 0

/-- Model of `perform_sync` (lines 62-106).  `now` is `time.time()`;
`target_locked` is true when `to_excel` on the target would raise
`PermissionError`.  Behaviour, in source order: return silently when less
than 2 seconds have passed since `last_sync_time`; otherwise record the
new `last_sync_time`, log, reconcile, and if any cell changed either
rewrite the target and update `last_hash` (unlocked) or catch the
`PermissionError` and log it (locked); with zero changes, leave the file
alone. -/
def perform_sync (now : Int) (target_locked : Bool) (s : SyncState) : SyncState × SyncOutcome :=
  if now - s.last_sync_time < 2 then (s, SyncOutcome.skipped_cooldown)
  else if (reconcile s.source_file s.target_file).2 > 0 then
    if target_locked then
      ({ s with last_sync_time := now,
                log_messages := log "Sync failed: Target file is locked"
                  (log "Starting sync..." s.log_messages) },
       SyncOutcome.locked_error)
    else
      ({ s with last_sync_time := now,
                target_file := (reconcile s.source_file s.target_file).1,
                target_writes := s.target_writes + 1,
                last_hash := some s.source_file,
                log_messages :=
                  log ("Synced " ++ toString (reconcile s.source_file s.target_file).2 ++ " cells")
                    (log "Starting sync..." s.log_messages) },
       SyncOutcome.synced (reconcile s.source_file s.target_file).2)
  else
    ({ s with last_sync_time := now,
              log_messages := log "No changes detected in source file"
                (log "Starting sync..." s.log_messages) },
     SyncOutcome.no_changes)

/-- The equality the specification describes for deciding whether a cell
changed: missing/empty values are equal to each other, and otherwise
values are equal when semantically equal as numbers or strings. -/
def spec_value_eq (a b : Value) : Bool :=
  (pd_isna a && pd_isna b) || pyEq a b

/-! Concrete tables for examples and counterexamples. -/

/-- Source table with one row: key `"X"`, column `val` holding `5`. -/
def exSource5 : DataFrame := ⟨"id", ["val"], [(Value.str "X", [Value.num 5])]⟩

/-- Target table with one row: key `"X"`, column `val` missing. -/
def exTargetMissing : DataFrame := ⟨"id", ["val"], [(Value.str "X", [Value.missing])]⟩

/-- Source table whose single data cell is missing. -/
def exBothMissingSrc : DataFrame := ⟨"id", ["val"], [(Value.str "K", [Value.missing])]⟩

/-- Target table whose single data cell is missing, same key. -/
def exBothMissingTgt : DataFrame := ⟨"id", ["val"], [(Value.str "K", [Value.missing])]⟩

/-- A fresh session state over the two given files: `last_sync_time = 0`,
no remembered hash, empty log. -/
def mkState (src tgt : DataFrame) : SyncState := ⟨0, none, src, tgt, 0, []⟩

/-! Helper lemmas about `perform_sync`. -/

theorem perform_sync_skipped (now : Int) (lock : Bool) (s : SyncState)
    (h : now - s.last_sync_time < 2) :
    perform_sync now lock s = (s, SyncOutcome.skipped_cooldown) := by
  unfold perform_sync
  rw [if_pos h]

theorem perform_sync_last_sync_time (now : Int) (lock : Bool) (s : SyncState)
    (h : ¬ now - s.last_sync_time < 2) :
    (perform_sync now lock s).1.last_sync_time = now := by
  unfold perform_sync
  rw [if_neg h]
  split
  · split <;> rfl
  · rfl

/-- C10: the sync operation never modifies the source file — for every
call of `perform_sync`, skipped, successful or failed, the source file's
contents are unchanged; only the target file may be rewritten. -/
theorem C10_source_file_never_written (now : Int) (lock : Bool) (s : SyncState) :
    (perform_sync now lock s).1.source_file = s.source_file := by
  unfold perform_sync
  split
  · rfl
  · split
    · split <;> rfl
    · rfl

/-- C3: with target row `{id: "X", val: missing}` and source row
`{id: "X", val: 5}`, reconcile reports one updated cell and after the
sync call the target's `val` cell holds `5`. -/
theorem C3_missing_cell_updated :
    (reconcile exSource5 exTargetMissing).2 = 1 ∧
    (perform_sync 10 false (mkState exSource5 exTargetMissing)).2 = SyncOutcome.synced 1 ∧
    (perform_sync 10 false (mkState exSource5 exTargetMissing)).1.target_file.rows
      = [(Value.str "X", [Value.num 5])] := by decide

/-- C5: when reconcile computes zero changed cells, `perform_sync` does
not rewrite the target file: its contents and its write count are left
untouched. -/
theorem C5_zero_changes_no_rewrite (now : Int) (lock : Bool) (s : SyncState)
    (h : (reconcile s.source_file s.target_file).2 = 0) :
    (perform_sync now lock s).1.target_file = s.target_file ∧
    (perform_sync now lock s).1.target_writes = s.target_writes := by
  unfold perform_sync
  split
  · exact ⟨rfl, rfl⟩
  · rw [h, if_neg (by norm_num)]
    exact ⟨rfl, rfl⟩

theorem C5_witness :
    (reconcile (mkState exSource5 exSource5).source_file
        (mkState exSource5 exSource5).target_file).2 = 0 ∧
    ((perform_sync 10 false (mkState exSource5 exSource5)).1.target_file
        = (mkState exSource5 exSource5).target_file ∧
     (perform_sync 10 false (mkState exSource5 exSource5)).1.target_writes
        = (mkState exSource5 exSource5).target_writes) :=
  ⟨by decide, C5_zero_changes_no_rewrite 10 false (mkState exSource5 exSource5) (by decide)⟩

/-- C1, counterexample: the claim says a cell whose target value and
source value are both missing is not updated and not counted; in the
code `pd.isna(old_value)` alone forces the update, so with both cells
missing the spec-equality holds (`spec_value_eq` is true) and yet
reconcile counts one updated cell. -/
theorem C1_counterexample :
    spec_value_eq Value.missing Value.missing = true ∧
    (reconcile exBothMissingSrc exBothMissingTgt).2 = 1 := by decide

/-- C4, counterexample: with a matched cell missing in both source and
target, the first sync call rewrites the cell (NaN over NaN) and so does
the second — the second `perform_sync`, two seconds later with no change
to the source, again reports one updated cell instead of zero. -/
theorem C4_counterexample :
    (perform_sync 12 false
        (perform_sync 10 false (mkState exBothMissingSrc exBothMissingTgt)).1).2
      = SyncOutcome.synced 1 := by decide

/-- C7, counterexample: the claim says any two calls whose starts are
less than 2 seconds apart make the second a no-op; but the cooldown is
measured from the start of the last call that actually ran, so after a
run at time 10, calls at 11 (skipped) and 12 are one second apart and
the call at 12 still performs reconciliation. -/
theorem C7_counterexample :
    ((12 : Int) - 11 < 2) ∧
    (perform_sync 12 false
        (perform_sync 11 false
          (perform_sync 10 false (mkState exSource5 exTargetMissing)).1).1).2
      ≠ SyncOutcome.skipped_cooldown := by decide

/-- C7, amended: if a `perform_sync` call at time `t1` actually runs
(the cooldown had elapsed), then any call started at `t2` with
`t2 - t1 < 2` is a silent no-op: it returns `skipped_cooldown` and
leaves the state exactly as it was. -/
theorem C7_cooldown_skip (s : SyncState) (t1 t2 : Int) (lock1 lock2 : Bool)
    (h1 : ¬ t1 - s.last_sync_time < 2) (h2 : t2 - t1 < 2) :
    perform_sync t2 lock2 (perform_sync t1 lock1 s).1
      = ((perform_sync t1 lock1 s).1, SyncOutcome.skipped_cooldown) :=
  perform_sync_skipped t2 lock2 _
    (by rw [perform_sync_last_sync_time t1 lock1 s h1]; exact h2)

theorem C7_witness :
    (¬ (10 : Int) - (mkState exSource5 exTargetMissing).last_sync_time < 2) ∧
    perform_sync 11 false (perform_sync 10 false (mkState exSource5 exTargetMissing)).1
      = ((perform_sync 10 false (mkState exSource5 exTargetMissing)).1,
         SyncOutcome.skipped_cooldown) :=
  ⟨by decide, C7_cooldown_skip (mkState exSource5 exTargetMissing) 10 11 false false
    (by decide) (by decide)⟩

/-! Properties of Python value equality. -/

theorem pyEq_trans {a b c : Value} (h1 : pyEq a b = true) (h2 : pyEq b c = true) :
    pyEq a c = true := by
  cases a <;> cases b <;> cases c <;> simp_all [pyEq]

theorem pyEq_symm {a b : Value} (h : pyEq a b = true) : pyEq b a = true := by
  cases a <;> cases b <;> simp_all [pyEq]

theorem pyEq_refl {a : Value} (h : pd_isna a = false) : pyEq a a = true := by
  cases a <;> simp_all [pyEq, pd_isna]

/-- Looking a key up in the deduplicated source rows finds exactly the
last row in file order whose key matches. -/
theorem dedup_find_eq_last (rows : List (Value × List Value)) (k : Value) :
    (drop_duplicates_keep_last rows).find? (fun r => pyEq r.1 k)
      = rows.reverse.find? (fun r => pyEq r.1 k) := by
  induction rows with
  | nil => rfl
  | cons r rs ih =>
    rw [List.reverse_cons, List.find?_append]
    unfold drop_duplicates_keep_last
    split
    · rename_i hdup
      rw [ih]
      cases hfind : rs.reverse.find? (fun r => pyEq r.1 k) with
      | some x => simp [Option.or]
      | none =>
        cases hr : pyEq r.1 k with
        | false =>
          cases hfind2 : rs.reverse.find? (fun r => pyEq r.1 k) <;>
            simp [Option.or, List.find?, hr, hfind2]
        | true =>
          exfalso
          obtain ⟨r2, hr2mem, hr2⟩ := List.any_eq_true.mp hdup
          exact (List.find?_eq_none.mp hfind r2 (List.mem_reverse.mpr hr2mem))
            (pyEq_trans hr2 hr)
    · rename_i hdup
      rw [List.find?_cons, ih]
      cases hr : pyEq r.1 k with
      | false =>
        cases hfind : rs.reverse.find? (fun r => pyEq r.1 k) <;>
          simp [Option.or, List.find?, hr, hfind]
      | true =>
        have hnone : rs.reverse.find? (fun r => pyEq r.1 k) = none := by
          apply List.find?_eq_none.mpr
          intro x hx hpx
          exact hdup (List.any_eq_true.mpr
            ⟨x, List.mem_reverse.mp hx, pyEq_trans hpx (pyEq_symm hr)⟩)
        rw [hnone]
        simp [Option.or, List.find?, hr]

/-- C2: the source map keeps the last occurrence in file order when
several source rows share a key — in general the effective values for a
key are those of the last matching row, and for source rows
`[(K,1,"a"),(K,1,"b")]` the effective values for `K` come from the
second row. -/
theorem C2_keep_last_dedup :
    (∀ rows k, source_map rows k
        = (rows.reverse.find? (fun r => pyEq r.1 k)).map Prod.snd) ∧
    source_map [(Value.str "K", [Value.num 1, Value.str "a"]),
                (Value.str "K", [Value.num 1, Value.str "b"])] (Value.str "K")
      = some [Value.num 1, Value.str "b"] := by
  constructor
  · intro rows k
    unfold source_map
    rw [dedup_find_eq_last]
  · decide

/-- The amended per-cell change condition: the cell is written (and
counted) iff the values differ under the spec's equality
`spec_value_eq`, or both values are missing. -/
def spec_cell_changed (old nw : Value) : Bool :=
  !(spec_value_eq old nw) || (pd_isna old && pd_isna nw)

/-- Line 87's test agrees with the spec's inequality except that a
missing target value is always rewritten, even from a missing source
value. -/
theorem should_update_iff_spec (old nw : Value) :
    should_update old nw = spec_cell_changed old nw := by
  cases old <;> cases nw <;>
    simp [should_update, spec_cell_changed, spec_value_eq, pd_isna, pyEq]

/-- Characterization of the inner update loop: each cell is replaced by
the source value exactly when `spec_cell_changed` holds for it, and the
count is the number of such cells. -/
theorem update_cells_eq_spec (srcRow : List (String × Value)) (cols : List String) :
    ∀ olds : List Value, cols.length = olds.length →
    update_cells srcRow cols olds
      = ((cols.zip olds).map (fun p =>
            match srcRow.lookup p.1 with
            | none => p.2
            | some nw => if spec_cell_changed p.2 nw then nw else p.2),
         (cols.zip olds).countP (fun p =>
            ((srcRow.lookup p.1).map (fun nw => spec_cell_changed p.2 nw)).getD false)) := by
  induction cols with
  | nil =>
    intro olds h
    cases olds with
    | nil => rfl
    | cons o os => simp at h
  | cons c cs ih =>
    intro olds h
    cases olds with
    | nil => simp at h
    | cons old os =>
      have h' : cs.length = os.length := by simpa using h
      simp only [update_cells, ih os h', List.zip_cons_cons, List.map_cons, List.countP_cons]
      cases hl : srcRow.lookup c with
      | none => simp [hl]
      | some nw =>
        cases hs : spec_cell_changed old nw with
        | true => simp [hl, hs, should_update_iff_spec]
        | false => simp [hl, hs, should_update_iff_spec]

/-- C1, amended: for every matched target row and every non-key column
present in both tables, reconcile updates the target cell (and counts
it) iff the source and target values differ under the spec's equality
OR both values are missing/empty — the code rewrites a missing target
cell unconditionally, so a both-missing cell is updated and counted,
contrary to the original claim's final clause.  Stated as a full
characterization of reconcile's rows and count. -/
theorem C1_update_iff_spec_diff_or_both_missing (src tgt : DataFrame)
    (hw : ∀ r ∈ tgt.rows, r.2.length = tgt.dataCols.length) :
    (reconcile src tgt).1.rows
      = tgt.rows.map (fun r =>
          match source_map src.rows r.1 with
          | none => r
          | some srcVals =>
            (r.1, (tgt.dataCols.zip r.2).map (fun p =>
              match (src.dataCols.zip srcVals).lookup p.1 with
              | none => p.2
              | some nw => if spec_cell_changed p.2 nw then nw else p.2))) ∧
    (reconcile src tgt).2
      = (tgt.rows.map (fun r =>
          match source_map src.rows r.1 with
          | none => 0
          | some srcVals =>
            (tgt.dataCols.zip r.2).countP (fun p =>
              (((src.dataCols.zip srcVals).lookup p.1).map
                (fun nw => spec_cell_changed p.2 nw)).getD false))).sum := by
  constructor
  · unfold reconcile
    simp only [List.map_map]
    apply List.map_congr_left
    intro r hr
    cases hsm : source_map src.rows r.1 with
    | none => simp [hsm]
    | some sv =>
      simp only [Function.comp, hsm]
      rw [update_cells_eq_spec _ _ _ (hw r hr).symm]
  · unfold reconcile
    simp only [List.map_map]
    congr 1
    apply List.map_congr_left
    intro r hr
    cases hsm : source_map src.rows r.1 with
    | none => simp [hsm]
    | some sv =>
      simp only [Function.comp, hsm]
      rw [update_cells_eq_spec _ _ _ (hw r hr).symm]

/-- C1, witness for the amended theorem at the concrete tables of the
running example. -/
theorem C1_witness :
    (∀ r ∈ exTargetMissing.rows, r.2.length = exTargetMissing.dataCols.length) ∧
    ((reconcile exSource5 exTargetMissing).1.rows
      = exTargetMissing.rows.map (fun r =>
          match source_map exSource5.rows r.1 with
          | none => r
          | some srcVals =>
            (r.1, (exTargetMissing.dataCols.zip r.2).map (fun p =>
              match (exSource5.dataCols.zip srcVals).lookup p.1 with
              | none => p.2
              | some nw => if spec_cell_changed p.2 nw then nw else p.2))) ∧
    (reconcile exSource5 exTargetMissing).2
      = (exTargetMissing.rows.map (fun r =>
          match source_map exSource5.rows r.1 with
          | none => 0
          | some srcVals =>
            (exTargetMissing.dataCols.zip r.2).countP (fun p =>
              (((exSource5.dataCols.zip srcVals).lookup p.1).map
                (fun nw => spec_cell_changed p.2 nw)).getD false))).sum) :=
  ⟨by decide, C1_update_iff_spec_diff_or_both_missing exSource5 exTargetMissing (by decide)⟩

/-! Idempotence machinery for C4. -/

theorem lookup_mem {l : List (String × Value)} {c : String} {v : Value} :
    l.lookup c = some v → (c, v) ∈ l := by
  induction l with
  | nil => intro h; simp [List.lookup] at h
  | cons p ps ih =>
    intro h
    match p with
    | (k, b) =>
      by_cases hk : c = k
      · subst hk
        have hb : b = v := by simpa [List.lookup] using h
        subst hb
        exact List.mem_cons_self _ _
      · have h' : ps.lookup c = some v := by
          simpa [List.lookup, beq_eq_false_iff_ne.mpr hk] using h
        exact List.mem_cons_of_mem _ (ih h')

theorem should_update_self {a : Value} (h : pd_isna a = false) :
    should_update a a = false := by
  simp [should_update, h, pyEq_refl h]

/-- Applying the update loop twice with the same source row changes
nothing the second time, provided no source value is missing. -/
theorem update_cells_idem (srcRow : List (String × Value))
    (hsrc : ∀ p ∈ srcRow, pd_isna p.2 = false) :
    ∀ (cols : List String) (olds : List Value),
      (update_cells srcRow cols ((update_cells srcRow cols olds).1)).2 = 0 := by
  intro cols
  induction cols with
  | nil => intro olds; cases olds <;> rfl
  | cons c cs ih =>
    intro olds
    cases olds with
    | nil => rfl
    | cons old os =>
      cases hl : srcRow.lookup c with
      | none =>
        simpa [update_cells, hl] using ih os
      | some nw =>
        have hnw : pd_isna nw = false := hsrc (c, nw) (lookup_mem hl)
        cases hu : should_update old nw with
        | true =>
          simpa [update_cells, hl, hu, should_update_self hnw] using ih os
        | false =>
          simpa [update_cells, hl, hu] using ih os

theorem dedup_subset (rows : List (Value × List Value)) :
    ∀ r ∈ drop_duplicates_keep_last rows, r ∈ rows := by
  induction rows with
  | nil => intro r hr; simpa [drop_duplicates_keep_last] using hr
  | cons a rs ih =>
    intro r hr
    unfold drop_duplicates_keep_last at hr
    split at hr
    · exact List.mem_cons_of_mem _ (ih r hr)
    · rcases List.mem_cons.mp hr with h | h
      · exact h ▸ List.mem_cons_self _ _
      · exact List.mem_cons_of_mem _ (ih r h)

theorem source_map_mem {rows : List (Value × List Value)} {k : Value} {sv : List Value}
    (h : source_map rows k = some sv) : ∃ k2, (k2, sv) ∈ rows := by
  unfold source_map at h
  cases hf : (drop_duplicates_keep_last rows).find? (fun r => pyEq r.1 k) with
  | none => rw [hf] at h; simp at h
  | some r =>
    rw [hf] at h
    simp only [Option.map_some'] at h
    refine ⟨r.1, ?_⟩
    have hr : r ∈ rows := dedup_subset rows r (List.mem_of_find?_eq_some hf)
    cases h
    simpa using hr

/-- Reconciling a second time from an all-present source changes
nothing. -/
theorem reconcile_idem (src tgt : DataFrame)
    (hsrc : ∀ r ∈ src.rows, ∀ v ∈ r.2, pd_isna v = false) :
    (reconcile src (reconcile src tgt).1).2 = 0 := by
  unfold reconcile
  simp only [List.map_map]
  apply List.sum_eq_zero
  intro x hx
  simp only [List.mem_map] at hx
  obtain ⟨r, hr, rfl⟩ := hx
  simp only [Function.comp]
  cases hsm : source_map src.rows r.1 with
  | none => simp [hsm]
  | some sv =>
    obtain ⟨k2, hk2⟩ := source_map_mem hsm
    have hnv : ∀ p ∈ src.dataCols.zip sv, pd_isna p.2 = false := fun p hp =>
      hsrc (k2, sv) hk2 p.2 (List.of_mem_zip hp).2
    simpa [hsm] using update_cells_idem _ hnv tgt.dataCols r.2

theorem perform_sync_source_file (now : Int) (lock : Bool) (s : SyncState) :
    (perform_sync now lock s).1.source_file = s.source_file := by
  unfold perform_sync
  split
  · rfl
  · split
    · split <;> rfl
    · rfl

/-- After a non-skipped unlocked call, the target file is either the
reconciled table or (when nothing changed) the old one. -/
theorem perform_sync_target_file (now : Int) (s : SyncState)
    (h : ¬ now - s.last_sync_time < 2) :
    (perform_sync now false s).1.target_file = (reconcile s.source_file s.target_file).1 ∨
    ((perform_sync now false s).1.target_file = s.target_file ∧
     (reconcile s.source_file s.target_file).2 = 0) := by
  unfold perform_sync
  rw [if_neg h]
  split
  · left; rfl
  · right; exact ⟨rfl, by omega⟩

theorem perform_sync_updates_zero (now : Int) (lock : Bool) (s : SyncState)
    (h0 : (reconcile s.source_file s.target_file).2 = 0) :
    updates_of (perform_sync now lock s).2 = 0 := by
  unfold perform_sync
  split
  · rfl
  · rw [h0, if_neg (by norm_num)]
    rfl

/-- C4, amended: calling the sync operation twice in succession with no
intervening change to the source performs zero cell updates the second
time, provided the first call actually ran (its cooldown had elapsed)
and no source data value is missing/empty.  The counterexample
`C4_counterexample` shows the restriction is needed: a missing source
value is rewritten — and counted — on every sync. -/
theorem C4_idempotent_without_missing_source (s : SyncState) (t1 t2 : Int)
    (h1 : ¬ t1 - s.last_sync_time < 2)
    (hsrc : ∀ r ∈ s.source_file.rows, ∀ v ∈ r.2, pd_isna v = false) :
    updates_of (perform_sync t2 false (perform_sync t1 false s).1).2 = 0 := by
  have hs : (perform_sync t1 false s).1.source_file = s.source_file :=
    perform_sync_source_file t1 false s
  have h0 : (reconcile (perform_sync t1 false s).1.source_file
      (perform_sync t1 false s).1.target_file).2 = 0 := by
    rcases perform_sync_target_file t1 s h1 with ht | ⟨ht, h00⟩
    · rw [hs, ht]
      exact reconcile_idem s.source_file s.target_file hsrc
    · rw [hs, ht]
      exact h00
  exact perform_sync_updates_zero t2 false _ h0

theorem C4_witness :
    (¬ (10 : Int) - (mkState exSource5 exTargetMissing).last_sync_time < 2) ∧
    (∀ r ∈ (mkState exSource5 exTargetMissing).source_file.rows,
        ∀ v ∈ r.2, pd_isna v = false) ∧
    updates_of (perform_sync 12 false
        (perform_sync 10 false (mkState exSource5 exTargetMissing)).1).2 = 0 :=
  ⟨by decide, by decide,
    C4_idempotent_without_missing_source (mkState exSource5 exTargetMissing) 10 12
      (by decide) (by decide)⟩

theorem log_head (m : String) (l : List String) : (log m l).head? = some m := by
  simp only [log]
  split
  · rename_i h
    cases l with
    | nil => simp at h
    | cons a as => simp
  · rfl

/-- C9: when the target is exclusively locked and there are cells to
write, the sync call reports the locked-target failure instead of
crashing: it returns the `locked_error` outcome, leaves the target file
and its write count untouched, puts the actionable message at the head
of the log, and does not prevent future attempts — a later call once
the cooldown elapses is not skipped. -/
theorem C9_locked_target_recoverable (s : SyncState) (now t2 : Int)
    (h1 : ¬ now - s.last_sync_time < 2)
    (hn : 0 < (reconcile s.source_file s.target_file).2)
    (h2 : ¬ t2 - now < 2) :
    (perform_sync now true s).2 = SyncOutcome.locked_error ∧
    (perform_sync now true s).1.target_file = s.target_file ∧
    (perform_sync now true s).1.target_writes = s.target_writes ∧
    (perform_sync now true s).1.log_messages.head?
      = some "Sync failed: Target file is locked" ∧
    (perform_sync t2 false (perform_sync now true s).1).2
      ≠ SyncOutcome.skipped_cooldown := by
  have hrun : perform_sync now true s
      = ({ s with last_sync_time := now,
                  log_messages := log "Sync failed: Target file is locked"
                    (log "Starting sync..." s.log_messages) },
         SyncOutcome.locked_error) := by
    unfold perform_sync
    rw [if_neg h1, if_pos hn, if_pos rfl]
  refine ⟨?_, ?_, ?_, ?_, ?_⟩
  · rw [hrun]
  · rw [hrun]
  · rw [hrun]
  · rw [hrun]
    exact log_head _ _
  · rw [hrun]
    unfold perform_sync
    rw [if_neg (by simpa using h2)]
    split
    · split
      · simp
      · simp
    · simp

theorem C9_witness :
    (¬ (10 : Int) - (mkState exSource5 exTargetMissing).last_sync_time < 2) ∧
    (0 < (reconcile (mkState exSource5 exTargetMissing).source_file
        (mkState exSource5 exTargetMissing).target_file).2) ∧
    (¬ (12 : Int) - 10 < 2) ∧
    ((perform_sync 10 true (mkState exSource5 exTargetMissing)).2
        = SyncOutcome.locked_error ∧
     (perform_sync 10 true (mkState exSource5 exTargetMissing)).1.target_file
        = (mkState exSource5 exTargetMissing).target_file ∧
     (perform_sync 10 true (mkState exSource5 exTargetMissing)).1.target_writes
        = (mkState exSource5 exTargetMissing).target_writes ∧
     (perform_sync 10 true (mkState exSource5 exTargetMissing)).1.log_messages.head?
        = some "Sync failed: Target file is locked" ∧
     (perform_sync 12 false (perform_sync 10 true (mkState exSource5 exTargetMissing)).1).2
        ≠ SyncOutcome.skipped_cooldown) :=
  ⟨by decide, by decide, by decide,
    C9_locked_target_recoverable (mkState exSource5 exTargetMissing) 10 12
      (by decide) (by decide) (by decide)⟩

/-! Frame lemmas for C6. -/

theorem update_cells_length (srcRow : List (String × Value)) :
    ∀ (cols : List String) (olds : List Value),
      (update_cells srcRow cols olds).1.length = olds.length := by
  intro cols
  induction cols with
  | nil => intro olds; cases olds <;> rfl
  | cons c cs ih =>
    intro olds
    cases olds with
    | nil => rfl
    | cons old os =>
      cases hl : srcRow.lookup c with
      | none => simpa [update_cells, hl] using ih os
      | some nw =>
        cases hu : should_update old nw with
        | true => simpa [update_cells, hl, hu] using ih os
        | false => simpa [update_cells, hl, hu] using ih os

theorem zip_lookup_none {c : String} :
    ∀ (cols : List String) (vals : List Value), c ∉ cols →
      (cols.zip vals).lookup c = none := by
  intro cols
  induction cols with
  | nil => intro vals h; simp
  | cons c2 cs ih =>
    intro vals h
    cases vals with
    | nil => simp
    | cons v vs =>
      have hne : c ≠ c2 := fun he => h (he ▸ List.mem_cons_self _ _)
      simp only [List.zip_cons_cons, List.lookup_cons, beq_eq_false_iff_ne.mpr hne]
      exact ih vs (fun hm => h (List.mem_cons_of_mem _ hm))

/-- A position whose column is not a key of the source row's dict is
left untouched by the update loop. -/
theorem update_cells_getD_frame (srcRow : List (String × Value)) :
    ∀ (cols : List String) (olds : List Value) (j : Nat),
      srcRow.lookup (cols.getD j "") = none →
      (update_cells srcRow cols olds).1.getD j Value.missing
        = olds.getD j Value.missing := by
  intro cols
  induction cols with
  | nil => intro olds j h; cases olds <;> rfl
  | cons c cs ih =>
    intro olds j h
    cases olds with
    | nil => cases j <;> rfl
    | cons old os =>
      cases j with
      | zero =>
        have hc : srcRow.lookup c = none := h
        simp [update_cells, hc]
      | succ j =>
        have hc : srcRow.lookup (cs.getD j "") = none := h
        cases hl : srcRow.lookup c with
        | none => simpa [update_cells, hl] using ih os j hc
        | some nw =>
          cases hu : should_update old nw with
          | true => simpa [update_cells, hl, hu] using ih os j hc
          | false => simpa [update_cells, hl, hu] using ih os j hc

/-- The update loop only consults the source row through lookups on the
target's columns. -/
theorem update_cells_congr (S S2 : List (String × Value)) :
    ∀ (cols : List String) (olds : List Value),
      (∀ c ∈ cols, S2.lookup c = S.lookup c) →
      update_cells S2 cols olds = update_cells S cols olds := by
  intro cols
  induction cols with
  | nil => intro olds h; cases olds <;> rfl
  | cons c cs ih =>
    intro olds h
    cases olds with
    | nil => rfl
    | cons old os =>
      have hc := h c (List.mem_cons_self _ _)
      have hrest := ih os (fun c2 hc2 => h c2 (List.mem_cons_of_mem _ hc2))
      simp only [update_cells, hrest, hc]

theorem lookup_append_single {c c0 : String} {v : Value}
    (hne : c ≠ c0) :
    ∀ A : List (String × Value), (A ++ [(c0, v)]).lookup c = A.lookup c := by
  intro A
  induction A with
  | nil => simp [List.lookup, beq_eq_false_iff_ne.mpr hne]
  | cons p ps ih =>
    cases p with
    | mk k b =>
      by_cases hk : c = k
      · subst hk; simp [List.lookup]
      · simp only [List.cons_append, List.lookup_cons, beq_eq_false_iff_ne.mpr hk]
        exact ih

/-- Extending every source row with one extra value does not change
which rows the keep-last deduplication keeps. -/
theorem dedup_map_ext (v : Value) :
    ∀ rows : List (Value × List Value),
      drop_duplicates_keep_last (rows.map (fun r => (r.1, r.2 ++ [v])))
        = (drop_duplicates_keep_last rows).map (fun r => (r.1, r.2 ++ [v])) := by
  intro rows
  induction rows with
  | nil => rfl
  | cons r rs ih =>
    have hany : (rs.map (fun r2 => (r2.1, r2.2 ++ [v]))).any
          (fun r2 => pyEq r2.1 (r.1, r.2 ++ [v]).1)
        = rs.any (fun r2 => pyEq r2.1 r.1) := by
      rw [List.any_map]
      rfl
    simp only [List.map_cons, drop_duplicates_keep_last, hany]
    cases hdup : rs.any (fun r2 => pyEq r2.1 r.1) with
    | true => simpa [hdup] using ih
    | false => simp only [hdup, if_neg Bool.false_ne_true, ih, List.map_cons]

/-- The source map of the extended table returns the original values
with the extra value appended. -/
theorem source_map_ext (v : Value) (rows : List (Value × List Value)) (k : Value) :
    source_map (rows.map (fun r => (r.1, r.2 ++ [v]))) k
      = (source_map rows k).map (fun sv => sv ++ [v]) := by
  unfold source_map
  rw [dedup_map_ext, List.find?_map, Option.map_map, Option.map_map]
  rfl

theorem source_map_length {src : DataFrame} {k : Value} {sv : List Value}
    (hs : ∀ r ∈ src.rows, r.2.length = src.dataCols.length)
    (h : source_map src.rows k = some sv) : sv.length = src.dataCols.length := by
  obtain ⟨k2, hk2⟩ := source_map_mem h
  exact hs (k2, sv) hk2

/-- C6: frame condition of reconcile — the header is untouched, every
target row keeps its key, a target row whose key is absent from the
source map is left unchanged, cells in target columns absent from the
source are never touched, and source columns absent from the target are
ignored (adding such a column to the source changes nothing). -/
theorem C6_frame_condition (src tgt : DataFrame)
    (hs : ∀ r ∈ src.rows, r.2.length = src.dataCols.length) :
    (reconcile src tgt).1.keyCol = tgt.keyCol ∧
    (reconcile src tgt).1.dataCols = tgt.dataCols ∧
    List.Forall₂ (fun r r2 =>
        r2.1 = r.1 ∧ r2.2.length = r.2.length ∧
        (source_map src.rows r.1 = none → r2 = r) ∧
        (∀ j : Nat, tgt.dataCols.getD j "" ∉ src.dataCols →
          r2.2.getD j Value.missing = r.2.getD j Value.missing))
      tgt.rows (reconcile src tgt).1.rows ∧
    (∀ c0 v, c0 ∉ tgt.dataCols →
      reconcile (DataFrame.mk src.keyCol (src.dataCols ++ [c0])
          (src.rows.map (fun r => (r.1, r.2 ++ [v])))) tgt
        = reconcile src tgt) := by
  refine ⟨rfl, rfl, ?_, ?_⟩
  · unfold reconcile
    simp only [List.map_map]
    rw [List.forall₂_map_right_iff, List.forall₂_same]
    intro r hr
    cases hsm : source_map src.rows r.1 with
    | none => simp [hsm]
    | some sv =>
      simp only [Function.comp, hsm]
      refine ⟨trivial, update_cells_length _ _ _, fun h => Option.noConfusion h, ?_⟩
      intro j hj
      exact update_cells_getD_frame _ _ _ _
        (zip_lookup_none src.dataCols sv hj)
  · intro c0 v hc0
    have hmap : ∀ r ∈ tgt.rows,
        (match source_map (src.rows.map (fun r2 => (r2.1, r2.2 ++ [v]))) r.1 with
         | none => (r, 0)
         | some srcVals =>
           ((r.1, (update_cells ((src.dataCols ++ [c0]).zip srcVals) tgt.dataCols r.2).1),
            (update_cells ((src.dataCols ++ [c0]).zip srcVals) tgt.dataCols r.2).2))
        = (match source_map src.rows r.1 with
           | none => (r, 0)
           | some srcVals =>
             ((r.1, (update_cells (src.dataCols.zip srcVals) tgt.dataCols r.2).1),
              (update_cells (src.dataCols.zip srcVals) tgt.dataCols r.2).2)) := by
      intro r hr
      rw [source_map_ext]
      cases hsm : source_map src.rows r.1 with
      | none => rfl
      | some sv =>
        have hlen : sv.length = src.dataCols.length := source_map_length hs hsm
        have hzip : (src.dataCols ++ [c0]).zip (sv ++ [v])
            = src.dataCols.zip sv ++ [(c0, v)] := by
          rw [List.zip_append hlen.symm]
          rfl
        have hcong : update_cells ((src.dataCols ++ [c0]).zip (sv ++ [v])) tgt.dataCols r.2
            = update_cells (src.dataCols.zip sv) tgt.dataCols r.2 := by
          rw [hzip]
          exact update_cells_congr _ _ tgt.dataCols r.2 (fun c hc =>
            lookup_append_single (fun he => hc0 (by rw [← he]; exact hc)) _)
        simp [hsm, hcong]
    have hm := List.map_congr_left hmap
    unfold reconcile
    rw [hm]

theorem C6_witness :
    (∀ r ∈ exSource5.rows, r.2.length = exSource5.dataCols.length) ∧
    ((reconcile exSource5 exTargetMissing).1.keyCol = exTargetMissing.keyCol ∧
     (reconcile exSource5 exTargetMissing).1.dataCols = exTargetMissing.dataCols ∧
     List.Forall₂ (fun r r2 =>
        r2.1 = r.1 ∧ r2.2.length = r.2.length ∧
        (source_map exSource5.rows r.1 = none → r2 = r) ∧
        (∀ j : Nat, exTargetMissing.dataCols.getD j "" ∉ exSource5.dataCols →
          r2.2.getD j Value.missing = r.2.getD j Value.missing))
      exTargetMissing.rows (reconcile exSource5 exTargetMissing).1.rows ∧
     (∀ c0 v, c0 ∉ exTargetMissing.dataCols →
       reconcile (DataFrame.mk exSource5.keyCol (exSource5.dataCols ++ [c0])
           (exSource5.rows.map (fun r => (r.1, r.2 ++ [v])))) exTargetMissing
         = reconcile exSource5 exTargetMissing)) :=
  ⟨by decide, C6_frame_condition exSource5 exTargetMissing (by decide)⟩
